import Mathlib

/-!
Verification development for the BunkrDownloader repository.

Shallow embedding of the download-orchestration core: configuration
constants, the chunk-size table, the chunked file writer, the media
downloader retry loop, filename reconciliation, and the URL decryption
routine, together with theorems settling the specification claims.
-/

namespace BunkrDL

/-! ### Constants from src/helpers/config.py -/

/-- KB, from src/helpers/config.py line 75. -/
def KB : Nat := 1024

/-- MB, from src/helpers/config.py line 76. -/
def MB : Nat := 1024 * KB

/-- GB, from src/helpers/config.py line 77. -/
def GB : Nat := 1024 * MB

/-- THRESHOLDS, from src/helpers/config.py lines 80-88. -/
def THRESHOLDS : List (Nat × Nat) :=
  [ (1 * MB, 32 * KB),
    (10 * MB, 128 * KB),
    (50 * MB, 512 * KB),
    (100 * MB, 1 * MB),
    (250 * MB, 2 * MB),
    (500 * MB, 4 * MB),
    (1 * GB, 8 * MB) ]

/-- LARGE_FILE_CHUNK_SIZE, from src/helpers/config.py line 91. -/
def LARGE_FILE_CHUNK_SIZE : Nat := 16 * MB

/-! ### get_chunk_size

Embeds the loop `for threshold, chunk_size in THRESHOLDS: if file_size <
threshold: return chunk_size` followed by the default return.  The file
size is an `Int` because the caller passes the sentinel `-1` when the
Content-Length header is missing. -/

/-- The threshold-scanning loop shared by both `get_chunk_size` versions:
returns the chunk size of the first threshold strictly above `file_size`,
or `dflt` when the table is exhausted. -/
def chunkLookup (file_size : Int) (dflt : Nat) : List (Nat × Nat) → Nat
  | [] => dflt
  | (threshold, chunk_size) :: rest =>
    if file_size < (threshold : Int) then chunk_size
    else chunkLookup file_size dflt rest

/-- get_chunk_size, from src/src/downloaders/download_utils.py lines 14-21
(table THRESHOLDS, default LARGE_FILE_CHUNK_SIZE). -/
def get_chunk_size (file_size : Int) : Nat :=
  chunkLookup file_size LARGE_FILE_CHUNK_SIZE THRESHOLDS

/-- The inline threshold table of the second get_chunk_size version,
src/helpers/downloaders/download_utils.py lines 15-21. -/
def thresholdsInline : List (Nat × Nat) :=
  [ (1 * MB, 16 * KB),
    (10 * MB, 64 * KB),
    (50 * MB, 128 * KB),
    (100 * MB, 256 * KB),
    (250 * MB, 512 * KB) ]

/-- get_chunk_size, from src/helpers/downloaders/download_utils.py lines
13-27 (inline table, default 1 MB). -/
def get_chunk_size_hd (file_size : Int) : Nat :=
  chunkLookup file_size (1 * MB) thresholdsInline

/-! ### save_file_with_progress

Embeds src/src/downloaders/download_utils.py lines 24-64.  The response
body is modelled as the sequence of events produced by
`response.iter_content`: data chunks (never `None` in practice, so the
`if chunk is not None` guard is always taken), possibly interrupted by a
`ChunkedEncodingError` raised mid-iteration.  The filesystem effect is
modelled by the final contents of the temp path (`download_path` with its
suffix replaced by `.temp`) and of the final path, which are distinct
paths. -/

/-- One event yielded while iterating `response.iter_content`: a data
chunk, or a `ChunkedEncodingError` aborting the iteration. -/
inductive StreamEvent
  | chunk (data : List Nat)
  | abort
deriving DecidableEq

/-- Result of one call to save_file_with_progress: the returned boolean
(`true` = incomplete/partial download), the bytes left at the temp path,
the bytes at the final path, and the `completed=` percentages passed to
`progress_manager.update_task` after each chunk. -/
structure SaveOutcome where
  incomplete : Bool
  tempFile : Option (List Nat)
  finalFile : Option (List Nat)
  reports : List ℚ
deriving DecidableEq

/-- The `for chunk in response.iter_content(...)` loop: accumulates the
bytes written and the reported percentages, stopping with `aborted = true`
if a `ChunkedEncodingError` is raised. -/
def streamLoop (file_size : Int) :
    List StreamEvent → List Nat → List ℚ → List Nat × List ℚ × Bool
  | [], written, reports => (written, reports, false)
  | .abort :: _, written, reports => (written, reports, true)
  | .chunk d :: rest, written, reports =>
    streamLoop file_size rest (written ++ d)
      (reports ++ [(((written.length : ℚ) + (d.length : ℚ)) / (file_size : ℚ)) * 100])

/-- save_file_with_progress, from src/src/downloaders/download_utils.py
lines 24-64.  `file_size` is `int(response.headers.get("Content-Length",
-1))`. -/
def save_file_with_progress (file_size : Int) (events : List StreamEvent) : SaveOutcome :=
  let r := streamLoop file_size events [] []
  if r.2.2 then
    -- except ChunkedEncodingError: return True (temp file kept, final untouched)
    ⟨true, some r.1, none, r.2.1⟩
  else if (r.1.length : Int) = file_size then
    -- shutil.move(temp_download_path, download_path); return False
    ⟨false, none, some r.1, r.2.1⟩
  else
    -- Keep partial file and return True if incomplete
    ⟨true, some r.1, none, r.2.1⟩

/-- Bytes of the chunks the loop actually consumes (everything before the
first abort). -/
def writtenBytes : List StreamEvent → List Nat
  | [] => []
  | .abort :: _ => []
  | .chunk d :: rest => d ++ writtenBytes rest

/-- Whether the stream raises a `ChunkedEncodingError` before exhaustion. -/
def hasAbort : List StreamEvent → Bool
  | [] => false
  | .abort :: _ => true
  | .chunk _ :: rest => hasAbort rest

/-- Specification-side view of the reported percentages: the cumulative
byte count after each chunk, divided by the declared length, times 100. -/
def reportsFrom (file_size : Int) (base : Nat) : List StreamEvent → List ℚ
  | [] => []
  | .abort :: _ => []
  | .chunk d :: rest =>
    (((base : ℚ) + (d.length : ℚ)) / (file_size : ℚ)) * 100
      :: reportsFrom file_size (base + d.length) rest

/-! ### MediaDownloader

Embeds src/helpers/downloaders/media_downloader.py.  One HTTP GET attempt
either succeeds or raises a `RequestException`; a raised exception carries
`req_err.response`, which is either absent (`none`, no response at all) or
a status code.  The status constants come from the `HTTPStatus` enum in
src/helpers/config.py (SERVER_DOWN = 521, BAD_GATEWAY = 502). -/

/-- Outcome of one `requests.get` + `raise_for_status` attempt. -/
inductive AttemptEvent
  | ok
  | fail (status : Option Nat)
deriving DecidableEq

/-- What handle_request_exception does: whether to retry, the (possibly
mutated) `self.retries`, whether the subdomain was marked offline, and the
`time.sleep` delay if any. -/
structure HREResult where
  retry : Bool
  newRetries : Nat
  markOffline : Bool
  slept : Option ℚ
deriving DecidableEq

/-- handle_request_exception, from
src/helpers/downloaders/media_downloader.py lines 147-188.  The Python
falls through from the 429/503 block (when the attempt was the last one)
to the 502 check and then to the final `return False`; the nested ifs
below reproduce exactly that control flow.  `jit` is the value drawn by
`random.uniform(2, 4)`. -/
def handle_request_exception (status : Option Nat) (attempt retries : Nat) (jit : ℚ) :
    HREResult :=
  match status with
  | none => ⟨false, retries, true, none⟩
  | some code =>
    if code = 521 then
      -- is_server_down: mark the subdomain as offline and exit the loop
      ⟨false, retries, true, none⟩
    else if (code = 429 ∨ code = 503) ∧ attempt < retries - 1 then
      -- Retry the request after delay = 4 ** (attempt + 1) + random.uniform(2, 4)
      ⟨true, retries, false, some ((4 : ℚ) ^ (attempt + 1) + jit)⟩
    else if code = 502 then
      -- Bad gateway: setting retries to 1 forces failure on the next check
      ⟨false, 1, false, none⟩
    else
      -- Do not retry, exit the loop
      ⟨false, retries, false, none⟩

/-- Observable trace of attempt_download: how many GET attempts were made,
the sleeps performed between attempts, the returned boolean (`true` =
download failed), and whether the subdomain was marked offline. -/
structure AttemptTrace where
  attempts : Nat
  delays : List ℚ
  failed : Bool
  markedOffline : Bool
deriving DecidableEq

/-- The `for attempt in range(self.retries)` loop of attempt_download,
from src/helpers/downloaders/media_downloader.py lines 101-131.  `fuel`
is the number of remaining loop iterations (the range bound is fixed when
the loop starts), `attempt` the current index, and `retries` the current
value of `self.retries` (which handle_request_exception may mutate). -/
def attemptLoop (outcomes : Nat → AttemptEvent) (jitter : Nat → ℚ) :
    Nat → Nat → Nat → AttemptTrace
  | 0, _, _ => ⟨0, [], true, false⟩
  | fuel + 1, attempt, retries =>
    match outcomes attempt with
    | .ok => ⟨1, [], false, false⟩
    | .fail st =>
      let h := handle_request_exception st attempt retries (jitter attempt)
      if h.retry then
        let t := attemptLoop outcomes jitter fuel (attempt + 1) h.newRetries
        ⟨t.attempts + 1, h.slept.toList ++ t.delays, t.failed,
          h.markOffline || t.markedOffline⟩
      else
        ⟨1, [], true, h.markOffline⟩

/-- attempt_download, from src/helpers/downloaders/media_downloader.py
lines 101-131: runs the loop from attempt 0 with the loop bound and
`self.retries` both equal to the configured retry budget. -/
def attempt_download (outcomes : Nat → AttemptEvent) (jitter : Nat → ℚ)
    (retries : Nat) : AttemptTrace :=
  attemptLoop outcomes jitter retries 0 retries

/-- Python's `needle in hay` substring test on strings. -/
def strContains (hay needle : String) : Bool :=
  decide (needle.data <:+: hay.data)

/-- skip_file_download, from src/helpers/downloaders/media_downloader.py
lines 51-99.  `fileExists` models `Path(final_path).exists()`; the
ignore / include checks are Python `word in self.file_name` substring
tests, and an empty list disables its check. -/
def skip_file_download (fileExists : Bool) (file_name : String)
    (ignore_list include_list : List String) : Bool :=
  if fileExists then true
  else if !ignore_list.isEmpty
      && ignore_list.any (fun word => strContains file_name word) then true
  else if !include_list.isEmpty
      && include_list.all (fun word => !strContains file_name word) then true
  else false

/-- Observable result of MediaDownloader.download. -/
structure DownloadResult where
  offlineSkip : Bool
  skipped : Bool
  trace : AttemptTrace
  deferred : Bool
deriving DecidableEq

/-- download, from src/helpers/downloaders/media_downloader.py lines
211-242.  `isOffline` is the value returned by the
`subdomain_is_offline(download_link, bunkr_status)` pre-check;
`is_final_attempt` is computed from `self.retries` before any attempt is
made.  A failed download is deferred (a FailedDownload dict is returned)
exactly when this was not the final pass. -/
def download (isOffline : Bool) (retries : Nat) (fileExists : Bool)
    (file_name : String) (ignore_list include_list : List String)
    (outcomes : Nat → AttemptEvent) (jitter : Nat → ℚ) : DownloadResult :=
  let is_final_attempt := retries == 1
  if isOffline && is_final_attempt then
    -- Non-operational subdomain: log, hide the task, return None
    ⟨true, false, ⟨0, [], false, false⟩, false⟩
  else if skip_file_download fileExists file_name ignore_list include_list then
    ⟨false, true, ⟨0, [], false, false⟩, false⟩
  else
    let t := attempt_download outcomes jitter retries
    if t.failed then
      ⟨false, false, t, !is_final_attempt⟩
    else
      ⟨false, false, t, false⟩

/-! ### Filename reconciliation

Embeds format_item_filename from src/helpers/crawlers/crawler_utils.py
lines 181-207, together with the `os.path.splitext` it relies on.  The
inputs are bare filenames (no path separators), so `splitext` reduces to
its extension logic: split at the last dot, unless every character before
that dot is itself a dot (leading dots of a basename never start an
extension). -/

/-- Index of the last '.' in the list, if any (CPython's `p.rfind('.')`). -/
def lastDotIdx : List Char → Option Nat
  | [] => none
  | c :: rest =>
    match lastDotIdx rest with
    | some i => some (i + 1)
    | none => if c = '.' then some 0 else none

/-- os.path.splitext restricted to bare filenames: split at the last dot
provided some earlier character is not a dot; otherwise the extension is
empty. -/
def os_path_splitext (s : String) : String × String :=
  match lastDotIdx s.data with
  | none => (s, "")
  | some i =>
    if (s.data.take i).any (fun c => c ≠ '.') then
      (⟨s.data.take i⟩, ⟨s.data.drop i⟩)
    else
      (s, "")

/-- format_item_filename, from src/helpers/crawlers/crawler_utils.py
lines 181-207. -/
def format_item_filename (original_filename url_based_filename : String) : String :=
  if original_filename = url_based_filename then original_filename
  else
    let p := os_path_splitext original_filename
    let q := os_path_splitext url_based_filename
    if strContains q.1 p.1 then url_based_filename
    else p.1 ++ "-" ++ q.1 ++ p.2

/-! ### Link resolution failure path

Embeds get_download_info from src/helpers/crawlers/crawler_utils.py lines
209-231 as run after link resolution: its input here is the result of
`await get_item_download_link(item_soup)` (`none` when no download link
was resolved) and the HTML-declared filename from get_item_filename.
Python exceptions that the code does not catch are surfaced as an
`Except.error`. -/

/-- An uncaught Python exception class. -/
inductive PyErr
  | typeError
  | attributeError
deriving DecidableEq

/-- get_url_based_filename, from src/helpers/url_utils.py lines 164-168:
`urlparse(link).path.split("/")[-1]`.  Dropping everything from '?' on
models urlparse's separation of the query string from the path. -/
def get_url_based_filename (item_download_link : String) : String :=
  (((item_download_link.takeWhile (fun c => c ≠ '?')).splitOn "/").getLastD "")

/-- format_item_filename as Python executes it when the second argument
may be `None`: `original_filename == url_based_filename` is `False`
against `None`, and `os.path.splitext(None)` raises `TypeError`. -/
def format_item_filename_py (original_filename : String)
    (url_based_filename : Option String) : Except PyErr String :=
  match url_based_filename with
  | some u => .ok (format_item_filename original_filename u)
  | none => .error .typeError

/-- get_download_info, from src/helpers/crawlers/crawler_utils.py lines
209-231: builds the URL-based filename only when a link was resolved,
then reconciles the two names and returns the pair. -/
def get_download_info (item_download_link : Option String)
    (item_filename : String) : Except PyErr (Option String × String) :=
  let url_based_filename := item_download_link.map get_url_based_filename
  match format_item_filename_py item_filename url_based_filename with
  | .ok formatted => .ok (item_download_link, formatted)
  | .error e => .error e

/-! ### Base64 (boundary: Python's base64.b64decode)

`b64decode` is called by decrypt_url on the API's `url` field.  The model
below implements the standard alphabet decode for strictly valid input
(length a multiple of four, `=` padding only at the end); on such input it
agrees with Python.  Invalid input yields `none` (binascii.Error). -/

/-- Value of one base64 alphabet character. -/
def b64Val (c : Char) : Option Nat :=
  if 'A' ≤ c ∧ c ≤ 'Z' then some (c.toNat - 65)
  else if 'a' ≤ c ∧ c ≤ 'z' then some (c.toNat - 97 + 26)
  else if '0' ≤ c ∧ c ≤ '9' then some (c.toNat - 48 + 52)
  else if c = '+' then some 62
  else if c = '/' then some 63
  else none

/-- Decode base64 in groups of four characters. -/
def b64Groups : List Char → Option (List Nat)
  | [] => some []
  | a :: b :: '=' :: '=' :: [] => do
    let va ← b64Val a
    let vb ← b64Val b
    pure [va * 4 + vb / 16]
  | a :: b :: c :: '=' :: [] => do
    let va ← b64Val a
    let vb ← b64Val b
    let vc ← b64Val c
    pure [va * 4 + vb / 16, vb % 16 * 16 + vc / 4]
  | a :: b :: c :: d :: rest => do
    let va ← b64Val a
    let vb ← b64Val b
    let vc ← b64Val c
    let vd ← b64Val d
    let tail ← b64Groups rest
    pure ((va * 4 + vb / 16) :: (vb % 16 * 16 + vc / 4) :: (vc % 4 * 64 + vd) :: tail)
  | _ => none

/-- base64.b64decode on a string, as bytes. -/
def b64decode (s : String) : Option (List Nat) :=
  b64Groups s.data

/-! ### UTF-8 (boundary: str.encode("utf-8") and bytes.decode("utf-8", errors="ignore"))

decrypt_url encodes the secret key to UTF-8 bytes and decodes the XOR-ed
bytes back with `errors="ignore"`.  The encoder is the standard UTF-8
encoding of unicode scalar values; the decoder follows CPython, which on
an ill-formed subsequence drops its maximal valid subpart and continues
at the next byte. -/

/-- Standard UTF-8 encoding of one unicode scalar value. -/
def utf8EncodeChar (n : Nat) : List Nat :=
  if n < 0x80 then [n]
  else if n < 0x800 then [0xC0 + n / 64, 0x80 + n % 64]
  else if n < 0x10000 then [0xE0 + n / 4096, 0x80 + n / 64 % 64, 0x80 + n % 64]
  else [0xF0 + n / 262144, 0x80 + n / 4096 % 64, 0x80 + n / 64 % 64, 0x80 + n % 64]

/-- UTF-8 encoding of a character sequence. -/
def utf8Encode : List Char → List Nat
  | [] => []
  | c :: cs => utf8EncodeChar c.toNat ++ utf8Encode cs

/-- One step of CPython's UTF-8 decoder with `errors="ignore"`,
structured on a fuel counter (one unit per decoded-or-skipped start
byte; the input length is always enough fuel).  On an ill-formed
sequence the decoder consumes its maximal valid subpart and resumes at
the offending byte; the continuation-byte ranges exclude overlong
forms, surrogates and values above U+10FFFF, as CPython does. -/
def utf8DecodeIgnoreGo : Nat → List Nat → List Char
  | 0, _ => []
  | _, [] => []
  | fuel + 1, b :: rest =>
    if b < 0x80 then Char.ofNat b :: utf8DecodeIgnoreGo fuel rest
    else if 0xC2 ≤ b ∧ b ≤ 0xDF then
      match rest with
      | b1 :: rest1 =>
        if 0x80 ≤ b1 ∧ b1 ≤ 0xBF then
          Char.ofNat ((b - 0xC0) * 64 + (b1 - 0x80)) :: utf8DecodeIgnoreGo fuel rest1
        else utf8DecodeIgnoreGo fuel (b1 :: rest1)
      | [] => []
    else if 0xE0 ≤ b ∧ b ≤ 0xEF then
      let lo := if b = 0xE0 then 0xA0 else 0x80
      let hi := if b = 0xED then 0x9F else 0xBF
      match rest with
      | b1 :: rest1 =>
        if lo ≤ b1 ∧ b1 ≤ hi then
          match rest1 with
          | b2 :: rest2 =>
            if 0x80 ≤ b2 ∧ b2 ≤ 0xBF then
              Char.ofNat ((b - 0xE0) * 4096 + (b1 - 0x80) * 64 + (b2 - 0x80))
                :: utf8DecodeIgnoreGo fuel rest2
            else utf8DecodeIgnoreGo fuel (b2 :: rest2)
          | [] => []
        else utf8DecodeIgnoreGo fuel (b1 :: rest1)
      | [] => []
    else if 0xF0 ≤ b ∧ b ≤ 0xF4 then
      let lo := if b = 0xF0 then 0x90 else 0x80
      let hi := if b = 0xF4 then 0x8F else 0xBF
      match rest with
      | b1 :: rest1 =>
        if lo ≤ b1 ∧ b1 ≤ hi then
          match rest1 with
          | b2 :: rest2 =>
            if 0x80 ≤ b2 ∧ b2 ≤ 0xBF then
              match rest2 with
              | b3 :: rest3 =>
                if 0x80 ≤ b3 ∧ b3 ≤ 0xBF then
                  Char.ofNat ((b - 0xF0) * 262144 + (b1 - 0x80) * 4096
                      + (b2 - 0x80) * 64 + (b3 - 0x80))
                    :: utf8DecodeIgnoreGo fuel rest3
                else utf8DecodeIgnoreGo fuel (b3 :: rest3)
              | [] => []
            else utf8DecodeIgnoreGo fuel (b2 :: rest2)
          | [] => []
        else utf8DecodeIgnoreGo fuel (b1 :: rest1)
      | [] => []
    else utf8DecodeIgnoreGo fuel rest

/-- bytes.decode("utf-8", errors="ignore"). -/
def utf8DecodeIgnore (l : List Nat) : List Char :=
  utf8DecodeIgnoreGo l.length l

/-! ### decrypt_url

Embeds decrypt_url from src/src/crawlers/api_utils.py lines 50-71 (the
src/helpers/url_utils.py copy at lines 194-215 is identical except that
it returns `""` instead of `None` on a missing field).  The API response
is a Python `dict[str, bool | str | int]`. -/

/-- A value of the API response dict. -/
inductive ApiValue
  | int (i : Int)
  | str (s : String)
  | bool (b : Bool)
deriving DecidableEq

/-- The API response dict (keys are unique). -/
def ApiResponse : Type := List (String × ApiValue)

/-- Dict lookup, `KeyError` modelled as `none`. -/
def ApiResponse.get? (resp : ApiResponse) (key : String) : Option ApiValue :=
  match resp with
  | [] => none
  | (k, v) :: rest => if k = key then some v else ApiResponse.get? rest key

/-- A Python `bool` is an `int` subtype, so `floor(timestamp / 3600)`
also works on booleans. -/
def ApiValue.asInt : ApiValue → Option Int
  | .int i => some i
  | .bool b => some (if b then 1 else 0)
  | .str _ => none

/-- itertools.cycle iterator state. -/
structure Cycle where
  elems : List Nat
  pos : Nat

/-- next(cycled_key): the current element, and the advanced iterator. -/
def Cycle.next (c : Cycle) : Nat × Cycle :=
  (c.elems.getD (c.pos % c.elems.length) 0, ⟨c.elems, c.pos + 1⟩)

/-- The generator `bytearray(byte ^ next(cycled_key) for byte in
encrypted_bytes)`: one `next` per ciphertext byte, in order. -/
def xorNextAll : List Nat → Cycle → List Nat
  | [], _ => []
  | b :: bs, cyc =>
    let kc := cyc.next
    (b ^^^ kc.1) :: xorNextAll bs kc.2

/-- Result of a Python call: a returned value, or an uncaught exception. -/
inductive PyResult (α : Type)
  | ok (a : α)
  | exn
deriving DecidableEq

/-- decrypt_url, from src/src/crawlers/api_utils.py lines 50-71.  A
missing `timestamp` or `url` key raises `KeyError`, which is caught and
turned into a `None` return.  A non-string `url` or a string `timestamp`
raises an uncaught `TypeError` (`.exn`), and an invalid base64 string an
uncaught `binascii.Error`.  `floor(timestamp / 3600)` is floor division
(`Int.fdiv`). -/
def decrypt_url (api_response : ApiResponse) : PyResult (Option String) :=
  match api_response.get? "timestamp", api_response.get? "url" with
  | some tv, some (.str url) =>
    (match tv.asInt, b64decode url with
     | some timestamp, some encrypted_bytes =>
       let time_key : Int := timestamp.fdiv 3600
       let secret_key : String := "SECRET_KEY_" ++ toString time_key
       let secret_key_bytes := utf8Encode secret_key.data
       let decrypted_bytes := xorNextAll encrypted_bytes ⟨secret_key_bytes, 0⟩
       .ok (some ⟨utf8DecodeIgnore decrypted_bytes⟩)
     | _, _ => .exn)
  | some _, some _ => .exn
  | _, _ => .ok none

/-- Specification-side statement of the XOR step: the byte at position
`i` is XOR-ed with key byte `i mod (key length)`. -/
def cyclicXorFrom (key : List Nat) : Nat → List Nat → List Nat
  | _, [] => []
  | i, b :: bs => (b ^^^ key.getD (i % key.length) 0) :: cyclicXorFrom key (i + 1) bs

/-- XOR the data with the cyclically-repeated key bytes, in order. -/
def cyclicXor (key data : List Nat) : List Nat :=
  cyclicXorFrom key 0 data

/-! ## Theorems -/

/-! ### Chunked file writer (claims C2, C3, C8) -/

/-- The iteration loop accumulates the pre-abort bytes and the cumulative
percentages. -/
theorem streamLoop_spec (file_size : Int) :
    ∀ (events : List StreamEvent) (acc : List Nat) (reps : List ℚ),
      streamLoop file_size events acc reps =
        (acc ++ writtenBytes events,
         reps ++ reportsFrom file_size acc.length events,
         hasAbort events) := by
  intro events
  induction events with
  | nil =>
    intro acc reps
    simp [streamLoop, writtenBytes, reportsFrom, hasAbort]
  | cons e rest ih =>
    intro acc reps
    cases e with
    | abort => simp [streamLoop, writtenBytes, reportsFrom, hasAbort]
    | chunk d =>
      simp [streamLoop, writtenBytes, reportsFrom, hasAbort, ih,
        List.append_assoc, List.length_append]

/-- Closed form of save_file_with_progress. -/
theorem save_eq (file_size : Int) (events : List StreamEvent) :
    save_file_with_progress file_size events =
      if hasAbort events then
        ⟨true, some (writtenBytes events), none, reportsFrom file_size 0 events⟩
      else if ((writtenBytes events).length : Int) = file_size then
        ⟨false, none, some (writtenBytes events), reportsFrom file_size 0 events⟩
      else
        ⟨true, some (writtenBytes events), none, reportsFrom file_size 0 events⟩ := by
  unfold save_file_with_progress
  rw [streamLoop_spec]
  rfl

/-- C2: for a declared non-negative content length, an aborted read
leaves the temp file and returns `true`; a clean stream returning exactly
the declared number of bytes is promoted to the final path with `false`;
a clean stream with any other byte count leaves the temp file, never
touches the final path and returns `true`. -/
theorem save_partial_semantics (file_size : Int) (events : List StreamEvent)
    (hlen : 0 ≤ file_size) :
    (hasAbort events = true →
      save_file_with_progress file_size events =
        ⟨true, some (writtenBytes events), none, reportsFrom file_size 0 events⟩) ∧
    (hasAbort events = false → ((writtenBytes events).length : Int) = file_size →
      save_file_with_progress file_size events =
        ⟨false, none, some (writtenBytes events), reportsFrom file_size 0 events⟩) ∧
    (hasAbort events = false → ((writtenBytes events).length : Int) ≠ file_size →
      save_file_with_progress file_size events =
        ⟨true, some (writtenBytes events), none, reportsFrom file_size 0 events⟩) := by
  refine ⟨fun ha => ?_, fun ha heq => ?_, fun ha hne => ?_⟩ <;>
    rw [save_eq] <;> simp [ha]
  · exact heq
  · exact hne

/-- Witness for C2 at a concrete complete two-byte download. -/
theorem save_partial_semantics_witness :
    save_file_with_progress 2 [StreamEvent.chunk [1, 2]] =
      ⟨false, none, some (writtenBytes [StreamEvent.chunk [1, 2]]),
        reportsFrom 2 0 [StreamEvent.chunk [1, 2]]⟩ :=
  (save_partial_semantics 2 [StreamEvent.chunk [1, 2]] (by decide)).2.1
    (by decide) (by decide)

/-- C3 counterexample: with the unknown-length sentinel `-1` and a clean
one-chunk stream, the writer returns `true` (partial) and never promotes
the temp file, contrary to the claimed non-partial success. -/
theorem unknown_length_cex :
    (save_file_with_progress (-1) [StreamEvent.chunk [0]]).incomplete = true ∧
    (save_file_with_progress (-1) [StreamEvent.chunk [0]]).finalFile = none ∧
    (save_file_with_progress (-1) [StreamEvent.chunk [0]]).tempFile = some [0] := by
  decide

/-- C3 amended: when the content length is the sentinel `-1`, the
byte-count comparison can never succeed, so even a stream exhausted
without error is reported as partial and the temp file is never promoted. -/
theorem unknown_length_always_partial (events : List StreamEvent)
    (h : hasAbort events = false) :
    save_file_with_progress (-1) events =
      ⟨true, some (writtenBytes events), none, reportsFrom (-1) 0 events⟩ := by
  rw [save_eq]
  have hge : (0 : Int) ≤ ((writtenBytes events).length : Int) := Int.natCast_nonneg _
  rw [if_neg (by simp [h]), if_neg (by omega)]

/-- Witness for the amended C3 on a clean one-chunk stream. -/
theorem unknown_length_always_partial_witness :
    save_file_with_progress (-1) [StreamEvent.chunk [1, 2, 3]] =
      ⟨true, some (writtenBytes [StreamEvent.chunk [1, 2, 3]]), none,
        reportsFrom (-1) 0 [StreamEvent.chunk [1, 2, 3]]⟩ :=
  unknown_length_always_partial [StreamEvent.chunk [1, 2, 3]] (by decide)

/-- The percentage chain starting from any base is non-decreasing when
the declared length is positive. -/
theorem reportsFrom_chain (file_size : Int) (hfs : 0 < file_size) :
    ∀ (events : List StreamEvent) (base : Nat),
      List.Chain' (· ≤ ·)
        (((base : ℚ) / (file_size : ℚ) * 100) :: reportsFrom file_size base events) := by
  have hfsQ : (0 : ℚ) < (file_size : ℚ) := by exact_mod_cast hfs
  intro events
  induction events with
  | nil => intro base; simp [reportsFrom]
  | cons e rest ih =>
    intro base
    cases e with
    | abort => simp [reportsFrom]
    | chunk d =>
      have step : (base : ℚ) / (file_size : ℚ) * 100 ≤
          ((base : ℚ) + (d.length : ℚ)) / (file_size : ℚ) * 100 := by
        gcongr
        exact le_add_of_nonneg_right (by positivity)
      have tail := ih (base + d.length)
      rw [Nat.cast_add] at tail
      exact List.Chain'.cons step tail

/-- C8 amended: the writer reports the cumulative percentage
`bytes_written / content_length * 100` after every chunk, and when the
declared content length is positive the reported sequence is
monotonically non-decreasing. -/
theorem progress_reports_monotone (file_size : Int) (events : List StreamEvent) :
    (save_file_with_progress file_size events).reports =
      reportsFrom file_size 0 events ∧
    (0 < file_size →
      List.Chain' (· ≤ ·) ((save_file_with_progress file_size events).reports)) := by
  have hrep : (save_file_with_progress file_size events).reports =
      reportsFrom file_size 0 events := by
    rw [save_eq]
    split_ifs <;> rfl
  refine ⟨hrep, fun hfs => ?_⟩
  rw [hrep]
  have h := reportsFrom_chain file_size hfs events 0
  simpa using h.tail

/-- Witness for C8 on a positive-length two-chunk stream. -/
theorem progress_reports_monotone_witness :
    (save_file_with_progress 4 [StreamEvent.chunk [1, 2], StreamEvent.chunk [3, 4]]).reports =
      reportsFrom 4 0 [StreamEvent.chunk [1, 2], StreamEvent.chunk [3, 4]] ∧
    List.Chain' (· ≤ ·)
      ((save_file_with_progress 4 [StreamEvent.chunk [1, 2], StreamEvent.chunk [3, 4]]).reports) :=
  ⟨(progress_reports_monotone 4 _).1, (progress_reports_monotone 4 _).2 (by decide)⟩

/-- C8 counterexample: with the sentinel content length `-1`, two
one-byte chunks produce the strictly decreasing percentages
`[-100, -200]`. -/
theorem progress_reports_cex :
    ¬ List.Chain' (· ≤ ·)
      ((save_file_with_progress (-1)
        [StreamEvent.chunk [0], StreamEvent.chunk [0]]).reports) := by
  intro h
  have hval : (save_file_with_progress (-1)
      [StreamEvent.chunk [0], StreamEvent.chunk [0]]).reports =
      [(-100 : ℚ), -200] := by
    rw [save_eq]
    norm_num [hasAbort, writtenBytes, reportsFrom]
  rw [hval] at h
  have h2 := (List.chain'_cons.mp h).1
  norm_num at h2

/-! ### Chunk size table (claim C7) -/

set_option maxHeartbeats 2000000 in
/-- C7: both get_chunk_size versions return a value from their fixed
ascending threshold table or the default large-file chunk size, and both
are monotonically non-decreasing in the file size. -/
theorem get_chunk_size_table_monotone :
    (∀ s : Int, get_chunk_size s ∈ THRESHOLDS.map Prod.snd ∨
      get_chunk_size s = LARGE_FILE_CHUNK_SIZE) ∧
    (∀ s t : Int, s ≤ t → get_chunk_size s ≤ get_chunk_size t) ∧
    (∀ s : Int, get_chunk_size_hd s ∈ thresholdsInline.map Prod.snd ∨
      get_chunk_size_hd s = 1 * MB) ∧
    (∀ s t : Int, s ≤ t → get_chunk_size_hd s ≤ get_chunk_size_hd t) := by
  refine ⟨fun s => ?_, fun s t hst => ?_, fun s => ?_, fun s t hst => ?_⟩
  · simp only [get_chunk_size, chunkLookup, THRESHOLDS, LARGE_FILE_CHUNK_SIZE,
      KB, MB, GB]
    split_ifs <;> simp
  · simp only [get_chunk_size, chunkLookup, THRESHOLDS, LARGE_FILE_CHUNK_SIZE,
      KB, MB, GB]
    split_ifs <;> omega
  · simp only [get_chunk_size_hd, chunkLookup, thresholdsInline, KB, MB]
    split_ifs <;> simp
  · simp only [get_chunk_size_hd, chunkLookup, thresholdsInline, KB, MB]
    split_ifs <;> omega

/-- Witness for C7 at concrete sizes 0 and 5 MB. -/
theorem get_chunk_size_table_monotone_witness :
    get_chunk_size 0 ≤ get_chunk_size (5 * 1024 * 1024) :=
  get_chunk_size_table_monotone.2.1 0 (5 * 1024 * 1024) (by decide)

/-! ### Media downloader retry loop (claims C4, C5) -/

/-- On a rate-limit status with attempts left, handle_request_exception
sleeps and retries. -/
theorem hre_rate_limited_retry (s : Nat) (hs : s = 429 ∨ s = 503)
    (attempt retries : Nat) (j : ℚ) (h : attempt < retries - 1) :
    handle_request_exception (some s) attempt retries j =
      ⟨true, retries, false, some ((4 : ℚ) ^ (attempt + 1) + j)⟩ := by
  rcases hs with rfl | rfl <;> simp [handle_request_exception, h]

/-- On a rate-limit status on the last allowed attempt,
handle_request_exception gives up without sleeping. -/
theorem hre_rate_limited_last (s : Nat) (hs : s = 429 ∨ s = 503)
    (attempt retries : Nat) (j : ℚ) (h : ¬ attempt < retries - 1) :
    handle_request_exception (some s) attempt retries j =
      ⟨false, retries, false, none⟩ := by
  rcases hs with rfl | rfl <;> simp [handle_request_exception, h]

/-- Closed form of the attempt loop when every attempt fails with the
same rate-limit status (429 or 503). -/
theorem attemptLoop_rate_limited (s : Nat) (hs : s = 429 ∨ s = 503)
    (outcomes : Nat → AttemptEvent) (jitter : Nat → ℚ)
    (hout : ∀ i, outcomes i = .fail (some s)) (N : Nat) :
    ∀ (fuel attempt : Nat), attempt + fuel = N →
      attemptLoop outcomes jitter fuel attempt N =
        ⟨fuel,
         (List.range (fuel - 1)).map
           (fun i => (4 : ℚ) ^ (attempt + i + 1) + jitter (attempt + i)),
         true, false⟩ := by
  intro fuel
  induction fuel with
  | zero =>
    intro attempt h
    simp [attemptLoop]
  | succ f ih =>
    intro attempt h
    rw [attemptLoop, hout attempt]
    cases f with
    | zero =>
      have hlast : ¬ attempt < N - 1 := by omega
      simp [hre_rate_limited_last s hs attempt N (jitter attempt) hlast]
    | succ f' =>
      have hretry : attempt < N - 1 := by omega
      have ihh := ih (attempt + 1) (by omega)
      simp only [hre_rate_limited_retry s hs attempt N (jitter attempt) hretry, ihh]
      simp only [Option.toList_some, List.singleton_append, Nat.succ_sub_one,
        List.range_succ_eq_map, List.map_cons, List.map_map]
      rw [if_pos trivial]
      simp only [AttemptTrace.mk.injEq, Nat.add_zero, Bool.or_self, List.cons.injEq,
        true_and, and_true]
      refine List.map_congr_left fun i _ => ?_
      have hidx : attempt + 1 + i = attempt + (i + 1) := by omega
      simp [Function.comp, hidx, Nat.succ_eq_add_one]

/-- C4: with `retries = N ≥ 1` and every attempt failing with 429 or
503, attempt_download performs exactly `N` GET attempts, fails, marks
nothing offline, and sleeps after each of the first `N - 1` failures for
`4 ^ (attempt + 1)` plus the jitter drawn from `[2, 4]`. -/
theorem rate_limited_attempt_schedule (N s : Nat)
    (outcomes : Nat → AttemptEvent) (jitter : Nat → ℚ)
    (hN : 1 ≤ N) (hs : s = 429 ∨ s = 503)
    (hout : ∀ i, outcomes i = .fail (some s))
    (hjit : ∀ i, 2 ≤ jitter i ∧ jitter i ≤ 4) :
    attempt_download outcomes jitter N =
      ⟨N,
       (List.range (N - 1)).map (fun i => (4 : ℚ) ^ (i + 1) + jitter i),
       true, false⟩ := by
  have h := attemptLoop_rate_limited s hs outcomes jitter hout N N 0 (by omega)
  simpa using h

/-- Witness for C4: three attempts against a host always answering 429,
with constant jitter 3, sleep `4 + 3` and `16 + 3` and then fail. -/
theorem rate_limited_attempt_schedule_witness :
    attempt_download (fun _ => .fail (some 429)) (fun _ => (3 : ℚ)) 3 =
      ⟨3, (List.range 2).map (fun i => (4 : ℚ) ^ (i + 1) + 3), true, false⟩ :=
  rate_limited_attempt_schedule 3 429 _ _ (by omega) (Or.inl rfl)
    (fun _ => rfl) (fun _ => ⟨by norm_num, by norm_num⟩)

/-- A loop that runs at least one iteration performs at least one GET. -/
theorem attemptLoop_pos_attempts (outcomes : Nat → AttemptEvent)
    (jitter : Nat → ℚ) (fuel attempt retries : Nat) (h : 1 ≤ fuel) :
    1 ≤ (attemptLoop outcomes jitter fuel attempt retries).attempts := by
  cases fuel with
  | zero => omega
  | succ f =>
    rw [attemptLoop]
    cases outcomes attempt with
    | ok => simp
    | fail st =>
      dsimp only
      split_ifs <;> simp

/-- C5: the download pre-check returns early (no network call) exactly
when the subdomain is recorded offline and the retry budget is 1; on an
earlier pass (retries > 1) the downloader still attempts the host even
when it is recorded offline, provided no skip condition applies. -/
theorem offline_precheck_iff (isOffline : Bool) (retries : Nat)
    (fileExists : Bool) (file_name : String)
    (ignore_list include_list : List String)
    (outcomes : Nat → AttemptEvent) (jitter : Nat → ℚ) :
    ((download isOffline retries fileExists file_name ignore_list include_list
        outcomes jitter).offlineSkip = true ↔ isOffline = true ∧ retries = 1) ∧
    ((download isOffline retries fileExists file_name ignore_list include_list
        outcomes jitter).offlineSkip = true →
      (download isOffline retries fileExists file_name ignore_list include_list
        outcomes jitter).trace.attempts = 0) ∧
    (isOffline = true → 1 < retries →
      skip_file_download fileExists file_name ignore_list include_list = false →
      1 ≤ (download isOffline retries fileExists file_name ignore_list
        include_list outcomes jitter).trace.attempts) := by
  refine ⟨?_, ?_, ?_⟩
  · unfold download
    cases hoff : isOffline && (retries == 1) with
    | true =>
      rcases Bool.and_eq_true _ _ |>.mp hoff with ⟨h1, h2⟩
      have h3 : retries = 1 := by simpa using h2
      simp [hoff, h1, h3]
    | false =>
      have hnot : ¬ (isOffline = true ∧ retries = 1) := by
        intro ⟨h1, h2⟩
        rw [h1, h2] at hoff
        simp at hoff
      simp only [hoff, Bool.false_eq_true, if_false]
      constructor
      · intro hcontra
        exfalso
        revert hcontra
        split_ifs <;> simp
      · intro hand
        exact absurd hand hnot
  · unfold download
    cases h1 : isOffline && (retries == 1) with
    | true => simp [h1]
    | false =>
      simp only [h1, Bool.false_eq_true, if_false]
      intro hcontra
      exfalso
      revert hcontra
      split_ifs <;> simp
  · intro hOff hr hskip
    unfold download
    have h2 : (retries == 1) = false := beq_eq_false_iff_ne.mpr (by omega)
    simp only [hOff, h2, Bool.and_false, Bool.false_eq_true, if_false, hskip]
    have hpos := attemptLoop_pos_attempts outcomes jitter retries 0 retries (by omega)
    split_ifs <;> simpa [attempt_download] using hpos

/-- Witness for C5: an offline host on a non-final pass (retries = 2) is
still attempted. -/
theorem offline_precheck_iff_witness :
    1 ≤ (download true 2 false "f" [] [] (fun _ => AttemptEvent.ok)
      (fun _ => (3 : ℚ))).trace.attempts :=
  (offline_precheck_iff true 2 false "f" [] [] (fun _ => AttemptEvent.ok)
    (fun _ => (3 : ℚ))).2.2 rfl (by omega) (by decide)

/-! ### Filename reconciliation (claim C6) -/

/-- C6: identical names are returned as-is; when the first name's stem is
a substring of the second name's stem the URL-derived name wins;
otherwise the stems are joined by a hyphen and the first name's extension
is appended; including the three concrete examples from the spec. -/
theorem format_item_filename_spec :
    (∀ a b : String, a = b → format_item_filename a b = a) ∧
    (∀ a b : String, a ≠ b →
      (os_path_splitext a).1.data <:+: (os_path_splitext b).1.data →
      format_item_filename a b = b) ∧
    (∀ a b : String, a ≠ b →
      ¬ (os_path_splitext a).1.data <:+: (os_path_splitext b).1.data →
      format_item_filename a b =
        (os_path_splitext a).1 ++ "-" ++ (os_path_splitext b).1 ++
          (os_path_splitext a).2) ∧
    format_item_filename "video.mp4" "video.mp4" = "video.mp4" ∧
    format_item_filename "clip" "clip_full.mp4" = "clip_full.mp4" ∧
    format_item_filename "alpha.mp4" "beta.mp4" = "alpha-beta.mp4" := by
  refine ⟨fun a b hab => ?_, fun a b hne hinf => ?_, fun a b hne hninf => ?_,
    by decide, by decide, by decide⟩
  · subst hab
    simp [format_item_filename]
  · simp [format_item_filename, strContains, hne, hinf]
  · simp [format_item_filename, strContains, hne, hninf]

/-- Witness for C6 at `("clip", "clip_full.mp4")`: the first stem is a
substring of the second, so the URL-derived name is kept. -/
theorem format_item_filename_spec_witness :
    format_item_filename "clip" "clip_full.mp4" = "clip_full.mp4" :=
  format_item_filename_spec.2.1 "clip" "clip_full.mp4" (by decide) (by decide)

/-! ### UTF-8 codec lemmas (for claims C1, C10) -/

/-- Decoding an ASCII byte. -/
theorem utf8DecodeIgnoreGo_ascii (n : Nat) (h : n < 0x80)
    (suffix : List Nat) (fuel : Nat) :
    utf8DecodeIgnoreGo (fuel + 1) (n :: suffix) =
      Char.ofNat n :: utf8DecodeIgnoreGo fuel suffix := by
  simp only [utf8DecodeIgnoreGo, if_pos h]

/-- Decoding a two-byte sequence produced by the encoder. -/
theorem utf8DecodeIgnoreGo_two (n : Nat) (h1 : 0x80 ≤ n) (h2 : n < 0x800)
    (suffix : List Nat) (fuel : Nat) :
    utf8DecodeIgnoreGo (fuel + 1) ((0xC0 + n / 64) :: (0x80 + n % 64) :: suffix) =
      Char.ofNat n :: utf8DecodeIgnoreGo fuel suffix := by
  have hb0 : ¬ (0xC0 + n / 64 < 0x80) := by omega
  have hb1 : 0xC2 ≤ 0xC0 + n / 64 ∧ 0xC0 + n / 64 ≤ 0xDF := by omega
  have hc : 0x80 ≤ 0x80 + n % 64 ∧ 0x80 + n % 64 ≤ 0xBF := by omega
  have harith : (0xC0 + n / 64 - 0xC0) * 64 + (0x80 + n % 64 - 0x80) = n := by omega
  simp only [utf8DecodeIgnoreGo, if_neg hb0, if_pos hb1, if_pos hc, harith]

/-- Decoding a three-byte sequence produced by the encoder (surrogates
excluded). -/
theorem utf8DecodeIgnoreGo_three (n : Nat) (h1 : 0x800 ≤ n) (h2 : n < 0x10000)
    (hs : ¬ (0xD800 ≤ n ∧ n < 0xE000)) (suffix : List Nat) (fuel : Nat) :
    utf8DecodeIgnoreGo (fuel + 1)
        ((0xE0 + n / 4096) :: (0x80 + n / 64 % 64) :: (0x80 + n % 64) :: suffix) =
      Char.ofNat n :: utf8DecodeIgnoreGo fuel suffix := by
  have hb0 : ¬ (0xE0 + n / 4096 < 0x80) := by omega
  have hb1 : ¬ (0xC2 ≤ 0xE0 + n / 4096 ∧ 0xE0 + n / 4096 ≤ 0xDF) := by omega
  have hb2 : 0xE0 ≤ 0xE0 + n / 4096 ∧ 0xE0 + n / 4096 ≤ 0xEF := by omega
  have hc1 : (if 0xE0 + n / 4096 = 0xE0 then 0xA0 else 0x80) ≤ 0x80 + n / 64 % 64 ∧
      0x80 + n / 64 % 64 ≤ (if 0xE0 + n / 4096 = 0xED then 0x9F else 0xBF) := by
    constructor <;> split_ifs <;> omega
  have hc2 : 0x80 ≤ 0x80 + n % 64 ∧ 0x80 + n % 64 ≤ 0xBF := by omega
  have harith : (0xE0 + n / 4096 - 0xE0) * 4096 + (0x80 + n / 64 % 64 - 0x80) * 64
      + (0x80 + n % 64 - 0x80) = n := by omega
  simp only [utf8DecodeIgnoreGo, if_neg hb0, if_neg hb1, if_pos hb2, if_pos hc1,
    if_pos hc2, harith]

/-- Decoding a four-byte sequence produced by the encoder. -/
theorem utf8DecodeIgnoreGo_four (n : Nat) (h1 : 0x10000 ≤ n) (h2 : n < 0x110000)
    (suffix : List Nat) (fuel : Nat) :
    utf8DecodeIgnoreGo (fuel + 1) ((0xF0 + n / 262144) :: (0x80 + n / 4096 % 64)
        :: (0x80 + n / 64 % 64) :: (0x80 + n % 64) :: suffix) =
      Char.ofNat n :: utf8DecodeIgnoreGo fuel suffix := by
  have hb0 : ¬ (0xF0 + n / 262144 < 0x80) := by omega
  have hb1 : ¬ (0xC2 ≤ 0xF0 + n / 262144 ∧ 0xF0 + n / 262144 ≤ 0xDF) := by omega
  have hb2 : ¬ (0xE0 ≤ 0xF0 + n / 262144 ∧ 0xF0 + n / 262144 ≤ 0xEF) := by omega
  have hb3 : 0xF0 ≤ 0xF0 + n / 262144 ∧ 0xF0 + n / 262144 ≤ 0xF4 := by omega
  have hc1 : (if 0xF0 + n / 262144 = 0xF0 then 0x90 else 0x80) ≤
      0x80 + n / 4096 % 64 ∧
      0x80 + n / 4096 % 64 ≤ (if 0xF0 + n / 262144 = 0xF4 then 0x8F else 0xBF) := by
    constructor <;> split_ifs <;> omega
  have hc2 : 0x80 ≤ 0x80 + n / 64 % 64 ∧ 0x80 + n / 64 % 64 ≤ 0xBF := by omega
  have hc3 : 0x80 ≤ 0x80 + n % 64 ∧ 0x80 + n % 64 ≤ 0xBF := by omega
  have harith : (0xF0 + n / 262144 - 0xF0) * 262144
      + (0x80 + n / 4096 % 64 - 0x80) * 4096 + (0x80 + n / 64 % 64 - 0x80) * 64
      + (0x80 + n % 64 - 0x80) = n := by omega
  simp only [utf8DecodeIgnoreGo, if_neg hb0, if_neg hb1, if_neg hb2, if_pos hb3,
    if_pos hc1, if_pos hc2, if_pos hc3, harith]

/-- With enough fuel, the decoder inverts the encoder. -/
theorem utf8DecodeIgnoreGo_encode :
    ∀ (cs : List Char) (fuel : Nat), (utf8Encode cs).length ≤ fuel →
      utf8DecodeIgnoreGo fuel (utf8Encode cs) = cs := by
  intro cs
  induction cs with
  | nil =>
    intro fuel _
    cases fuel <;> rfl
  | cons c cs ih =>
    intro fuel hfuel
    have hv : Nat.isValidChar c.toNat := c.valid
    have hlt : c.toNat < 0x110000 := by
      cases hv with
      | inl h => omega
      | inr h => omega
    rw [utf8Encode] at hfuel ⊢
    rcases Nat.lt_or_ge c.toNat 0x80 with h1 | h1
    · rw [utf8EncodeChar, if_pos h1] at hfuel ⊢
      rw [List.singleton_append] at hfuel ⊢
      rw [List.length_cons] at hfuel
      obtain ⟨f, rfl⟩ : ∃ f, fuel = f + 1 :=
        ⟨fuel - 1, by omega⟩
      rw [utf8DecodeIgnoreGo_ascii _ h1, Char.ofNat_toNat, ih f (by omega)]
    rcases Nat.lt_or_ge c.toNat 0x800 with h2 | h2
    · rw [utf8EncodeChar, if_neg (by omega), if_pos h2] at hfuel ⊢
      simp only [List.cons_append, List.nil_append] at hfuel ⊢
      simp only [List.length_cons] at hfuel
      obtain ⟨f, rfl⟩ : ∃ f, fuel = f + 1 :=
        ⟨fuel - 1, by omega⟩
      rw [utf8DecodeIgnoreGo_two _ h1 h2, Char.ofNat_toNat, ih f (by omega)]
    rcases Nat.lt_or_ge c.toNat 0x10000 with h3 | h3
    · have hsg : ¬ (0xD800 ≤ c.toNat ∧ c.toNat < 0xE000) := by
        cases hv with
        | inl h => omega
        | inr h => omega
      rw [utf8EncodeChar, if_neg (by omega), if_neg (by omega), if_pos h3] at hfuel ⊢
      simp only [List.cons_append, List.nil_append] at hfuel ⊢
      simp only [List.length_cons] at hfuel
      obtain ⟨f, rfl⟩ : ∃ f, fuel = f + 1 :=
        ⟨fuel - 1, by omega⟩
      rw [utf8DecodeIgnoreGo_three _ h2 h3 hsg, Char.ofNat_toNat, ih f (by omega)]
    · rw [utf8EncodeChar, if_neg (by omega), if_neg (by omega),
        if_neg (by omega)] at hfuel ⊢
      simp only [List.cons_append, List.nil_append] at hfuel ⊢
      simp only [List.length_cons] at hfuel
      obtain ⟨f, rfl⟩ : ∃ f, fuel = f + 1 :=
        ⟨fuel - 1, by omega⟩
      rw [utf8DecodeIgnoreGo_four _ h3 hlt, Char.ofNat_toNat, ih f (by omega)]

/-- Round trip: the ignore-mode decoder inverts the encoder on every
character sequence (every `Char` is a valid unicode scalar). -/
theorem utf8DecodeIgnore_encode (cs : List Char) :
    utf8DecodeIgnore (utf8Encode cs) = cs :=
  utf8DecodeIgnoreGo_encode cs (utf8Encode cs).length le_rfl

/-- The cycle-iterator fold equals indexing the key modulo its length. -/
theorem xorNextAll_eq_cyclicXorFrom (key : List Nat) :
    ∀ (data : List Nat) (pos : Nat),
      xorNextAll data ⟨key, pos⟩ = cyclicXorFrom key pos data := by
  intro data
  induction data with
  | nil => intro pos; rfl
  | cons b bs ih =>
    intro pos
    simp [xorNextAll, Cycle.next, cyclicXorFrom, ih]

/-! ### decrypt_url (claims C1, C10) -/

/-- C1: on an API response with an integer `timestamp` and a base64 `url`
field whose XOR-decoded bytes are the UTF-8 encoding of `plain`,
decrypt_url returns exactly `plain`: it derives key index
`floor(timestamp / 3600)`, forms `"SECRET_KEY_" ++ key_index`, XORs each
base64-decoded byte with the cyclically-repeated UTF-8 bytes of that
secret, in order, and decodes the result as UTF-8. -/
theorem decrypt_url_spec (resp : ApiResponse) (t : Int) (u : String)
    (cipher : List Nat) (plain : List Char)
    (ht : resp.get? "timestamp" = some (.int t))
    (hu : resp.get? "url" = some (.str u))
    (hb : b64decode u = some cipher)
    (hplain : cyclicXor (utf8Encode ("SECRET_KEY_" ++ toString (t.fdiv 3600)).data)
        cipher = utf8Encode plain) :
    decrypt_url resp = .ok (some ⟨plain⟩) := by
  unfold decrypt_url
  rw [ht, hu]
  simp only [ApiValue.asInt, hb]
  rw [xorNextAll_eq_cyclicXorFrom]
  rw [show cyclicXorFrom (utf8Encode ("SECRET_KEY_" ++ toString (t.fdiv 3600)).data)
      0 cipher = cyclicXor (utf8Encode ("SECRET_KEY_" ++ toString (t.fdiv 3600)).data)
      cipher from rfl]
  rw [hplain, utf8DecodeIgnore_encode]

/-- Witness for C1: timestamp 0 gives key "SECRET_KEY_0", and the base64
payload "Egc=" decodes to the plaintext "AB". -/
theorem decrypt_url_spec_witness :
    decrypt_url [("timestamp", .int 0), ("url", .str "Egc=")] =
      .ok (some ⟨['A', 'B']⟩) :=
  decrypt_url_spec [("timestamp", .int 0), ("url", .str "Egc=")] 0 "Egc="
    [18, 7] ['A', 'B'] (by decide) (by decide) (by decide) (by decide)

/-- C10: decrypt_url is total on well-formed input (integer timestamp,
valid base64 url): it never raises and always returns the ignore-mode
UTF-8 decoding of the XOR-ed bytes; and when those bytes are not valid
UTF-8, the undecodable bytes are silently dropped, as on the concrete
response whose decrypted bytes are `[65, 255, 66]` yet which yields the
lossy string "AB". -/
theorem decrypt_url_total_lossy :
    (∀ (resp : ApiResponse) (t : Int) (u : String) (cipher : List Nat),
      resp.get? "timestamp" = some (.int t) →
      resp.get? "url" = some (.str u) →
      b64decode u = some cipher →
      decrypt_url resp = .ok (some ⟨utf8DecodeIgnore
        (cyclicXor (utf8Encode ("SECRET_KEY_" ++ toString (t.fdiv 3600)).data)
          cipher)⟩)) ∧
    decrypt_url [("timestamp", .int 0), ("url", .str "EroB")] =
      .ok (some ⟨['A', 'B']⟩) ∧
    cyclicXor (utf8Encode ("SECRET_KEY_" ++ toString ((0 : Int).fdiv 3600)).data)
      [18, 186, 1] = [65, 255, 66] ∧
    utf8Encode ['A', 'B'] ≠ [65, 255, 66] := by
  refine ⟨fun resp t u cipher ht hu hb => ?_, by decide, by decide, by decide⟩
  unfold decrypt_url
  rw [ht, hu]
  simp only [ApiValue.asInt, hb]
  rw [xorNextAll_eq_cyclicXorFrom]
  rfl

/-- Witness for C10 at timestamp 7200 (key "SECRET_KEY_2") and the
single-byte payload "AA==". -/
theorem decrypt_url_total_lossy_witness :
    decrypt_url [("timestamp", .int 7200), ("url", .str "AA==")] =
      .ok (some ⟨utf8DecodeIgnore
        (cyclicXor (utf8Encode ("SECRET_KEY_" ++
          toString ((7200 : Int).fdiv 3600)).data) [0])⟩) :=
  decrypt_url_total_lossy.1 [("timestamp", .int 7200), ("url", .str "AA==")]
    7200 "AA==" [0] (by decide) (by decide) (by decide)

/-! ### Resolution failure path (claim C9) -/

/-- C9 (code bug evidence): when link resolution yields no download link,
get_download_info raises an uncaught TypeError
(`os.path.splitext(None)`), which propagates to the album-level caller
instead of being treated as "nothing to download". -/
theorem missing_link_raises_type_error :
    get_download_info none "file.mp4" = .error .typeError := rfl

end BunkrDL
